import Mathlib

/-!
Verification development for the judge0 orchestrator: a shallow embedding of
the session store (`SessionManager`), the execution client's poll loop, the
environment-injection preamble, and the three execute call paths (CLI command,
HTTP handler, MCP tool invocation), with theorems settling the specification
claims about them.

Modelling conventions:
* Go maps (the in-memory session registry, a session's env map, the on-disk
  file system) are association lists `List (String × α)` with `alookup`/`aset`;
  `aset` replaces the entry when the key is present and appends it otherwise,
  which matches Go map assignment.
* Fallible OS calls (create/open/write a file) are driven by explicit Boolean
  outcome arguments (`logOk`, `openOk`, `snapOk`): `true` means the call
  succeeds.  `crypto/rand` bytes and wall-clock times are passed in as
  arguments (`bytes`, `now`), since they are external inputs.
* The JSON snapshot written by `saveSession` is modelled as storing the
  `Session` value itself at its snapshot path; log files store their text.
* Timestamps are `Nat` ticks; durations are `Nat` milliseconds (the Go code
  uses `time.Time` and `float64` but no claim depends on their arithmetic).
-/

set_option autoImplicit false

namespace Judge0Orch

/-- Association-list lookup, modelling Go map read `m[k]`. -/
def alookup {α : Type} : List (String × α) → String → Option α
  | [], _ => none
  | (k, v) :: rest, key => if k = key then some v else alookup rest key

/-- Association-list update, modelling Go map write `m[k] = v`: replaces the
entry if the key is present, otherwise appends it. -/
def aset {α : Type} : List (String × α) → String → α → List (String × α)
  | [], key, val => [(key, val)]
  | (k, v) :: rest, key, val =>
    if k = key then (key, val) :: rest else (k, v) :: aset rest key val

/-- The keys of an association list. -/
def keysOf {α : Type} (l : List (String × α)) : List String :=
  l.map Prod.fst

/-- One lowercase hex digit. -/
def hexDigit (n : Nat) : Char :=
  if n < 10 then Char.ofNat (48 + n) else Char.ofNat (87 + n)

/-- Lowercase hex encoding of one byte, as in `encoding/hex`. -/
def hexByte (b : Nat) : String :=
  String.mk [hexDigit (b / 16 % 16), hexDigit (b % 16)]

/-- `hex.EncodeToString` over a byte slice. -/
def hexEncode (bytes : List Nat) : String :=
  (bytes.map hexByte).foldl (fun a b => a ++ b) ""

/-- `generateID` from the session store: `prefix + "-" + hex(randomBytes)`.
The 4 random bytes drawn from `crypto/rand` are an explicit argument. -/
def generateID (pfx : String) (bytes : List Nat) : String :=
  pfx ++ "-" ++ hexEncode bytes

/-- `Execution`: a single code execution recorded within a session. -/
structure Execution where
  id : String
  code : String
  output : String
  stderr : String
  exitCode : Int
  time : Nat
  duration : Nat
deriving DecidableEq

/-- `SessionState`: persistent state between executions. -/
structure SessionState where
  env : List (String × String)
  history : List Execution
deriving DecidableEq

/-- `Session`: an interactive execution session. -/
structure Session where
  id : String
  name : String
  language : String
  createdAt : Nat
  updatedAt : Nat
  state : SessionState
  logFile : String
  status : String
deriving DecidableEq

/-- The mutable world: the `SessionManager`'s in-memory map plus the on-disk
log files (text) and session snapshots (stored as `Session` values). -/
structure World where
  sessions : List (String × Session)
  logs : List (String × String)
  snaps : List (String × Session)
  dataDir : String
deriving DecidableEq

/-- Errors raised by the session store (Go returns `fmt.Errorf` values; this
inductive records which error site fired). -/
inductive StoreError where
  | notFound (id : String)
  | logFileCreate
  | logFileOpen
  | snapshotWrite
  | logRead
deriving DecidableEq

/-- Snapshot path used by `saveSession`: `filepath.Join(dataDir, id+".json")`. -/
def snapPath (dataDir id : String) : String :=
  dataDir ++ "/" ++ id ++ ".json"

/-- `saveSession`: persist a session snapshot to disk; `snapOk` is the outcome
of the `os.WriteFile` call. -/
def saveSessionW (w : World) (s : Session) (snapOk : Bool) :
    Except StoreError Unit × World :=
  if snapOk then
    (Except.ok (), { w with snaps := aset w.snaps (snapPath w.dataDir s.id) s })
  else
    (Except.error StoreError.snapshotWrite, w)

/-- The session record built at the top of `CreateSession`. -/
def freshSession (w : World) (language name : String) (bytes : List Nat)
    (now : Nat) : Session :=
  { id := generateID "sess" bytes, name := name, language := language,
    createdAt := now, updatedAt := now, state := { env := [], history := [] },
    logFile := w.dataDir ++ "/logs/" ++ generateID "sess" bytes ++ ".log",
    status := "active" }

/-- `CreateSession`: generate an id, build the session record, create the
empty log file, register the session in the in-memory map, persist the
snapshot — in exactly that order, as in the source. -/
def CreateSession (w : World) (language name : String) (bytes : List Nat)
    (now : Nat) (logOk snapOk : Bool) : Except StoreError Session × World :=
  let id := generateID "sess" bytes
  let session : Session := freshSession w language name bytes now
  if logOk then
    let logFile := session.logFile
    let w1 := { w with logs := aset w.logs logFile "" }
    let w2 := { w1 with sessions := aset w1.sessions id session }
    match saveSessionW w2 session snapOk with
    | (Except.ok _, w3) => (Except.ok session, w3)
    | (Except.error e, w3) => (Except.error e, w3)
  else
    (Except.error StoreError.logFileCreate, w)

/-- `GetSession`: look a session up by id. -/
def GetSession (w : World) (id : String) : Except StoreError Session :=
  match alookup w.sessions id with
  | some s => Except.ok s
  | none => Except.error (StoreError.notFound id)

/-- `ListSessions`: all sessions currently registered. -/
def ListSessions (w : World) : List Session :=
  w.sessions.map Prod.snd

/-- Go `time.Time.Format(time.RFC3339)`, abstracted to an injective rendering
of the model's `Nat` timestamps. -/
def rfc3339 (t : Nat) : String :=
  toString t

/-- The log record written by `AddExecution` for one execution. -/
def formatLogEntry (e : Execution) : String :=
  let base := "[" ++ rfc3339 e.time ++ "] $ " ++ e.code ++ "\n" ++ e.output ++ "\n"
  let base := if e.stderr ≠ "" then base ++ "[stderr] " ++ e.stderr ++ "\n" else base
  base ++ "[exit: " ++ toString e.exitCode ++ ", duration: " ++
    toString e.duration ++ "ms]\n\n"

/-- `exec.ID = generateID("exec")`: the execution with its freshly assigned
id. -/
def execWithId (e : Execution) (bytes : List Nat) : Execution :=
  { e with id := generateID "exec" bytes }

/-- A session with one more history entry and a refreshed `updatedAt` — the
in-memory mutation `AddExecution` performs before touching any file. -/
def withExecution (s : Session) (e' : Execution) (now : Nat) : Session :=
  { s with
      state := { s.state with history := s.state.history ++ [e'] },
      updatedAt := now }

/-- `AddExecution`: assign the execution a fresh id, append it to the
session's history, refresh `updatedAt`, append a record to the log file
(`openOk` is the outcome of the `os.OpenFile` append-mode call), then persist
the snapshot.  As in the source, the in-memory mutation happens before the
file operations. -/
def AddExecution (w : World) (sessionID : String) (e : Execution)
    (bytes : List Nat) (now : Nat) (openOk snapOk : Bool) :
    Except StoreError Unit × World :=
  match alookup w.sessions sessionID with
  | none => (Except.error (StoreError.notFound sessionID), w)
  | some session =>
    let e' := execWithId e bytes
    let session' := withExecution session e' now
    let w1 := { w with sessions := aset w.sessions sessionID session' }
    if openOk then
      let entry := formatLogEntry e'
      let old := (alookup w1.logs session'.logFile).getD ""
      let w2 := { w1 with logs := aset w1.logs session'.logFile (old ++ entry) }
      saveSessionW w2 session' snapOk
    else
      (Except.error StoreError.logFileOpen, w1)

/-- `SetEnv`: set one environment variable and persist. -/
def SetEnv (w : World) (sessionID key value : String) (now : Nat)
    (snapOk : Bool) : Except StoreError Unit × World :=
  match alookup w.sessions sessionID with
  | none => (Except.error (StoreError.notFound sessionID), w)
  | some session =>
    let session' :=
      { session with
          state := { session.state with env := aset session.state.env key value },
          updatedAt := now }
    let w1 := { w with sessions := aset w.sessions sessionID session' }
    saveSessionW w1 session' snapOk

/-- `CloseSession`: mark a session closed and persist. -/
def CloseSession (w : World) (id : String) (now : Nat) (snapOk : Bool) :
    Except StoreError Unit × World :=
  match alookup w.sessions id with
  | none => (Except.error (StoreError.notFound id), w)
  | some session =>
    let session' := { session with status := "closed", updatedAt := now }
    let w1 := { w with sessions := aset w.sessions id session' }
    saveSessionW w1 session' snapOk

/-- `GetLog`: look the session up, then read its whole log file; the `lines`
argument is accepted but unused, as in the source (tail is a TODO there).
A read failure is modelled as the log path being absent from `w.logs`. -/
def GetLog (w : World) (sessionID : String) (lines : Int) :
    Except StoreError String :=
  match alookup w.sessions sessionID with
  | none => Except.error (StoreError.notFound sessionID)
  | some session =>
    match alookup w.logs session.logFile with
    | none => Except.error StoreError.logRead
    | some content =>
      let _ := lines
      Except.ok content

/-- One escaped character of a Go double-quoted string literal.  Models the
escaping performed by `fmt.Sprintf("%q", ·)` for the common escapes; other
printable characters are passed through unchanged. -/
def goEscapeChar (c : Char) : String :=
  if c = '"' then "\\\""
  else if c = '\\' then "\\\\"
  else if c = '\n' then "\\n"
  else if c = '\t' then "\\t"
  else if c = '\r' then "\\r"
  else String.singleton c

/-- Go `fmt.Sprintf("%q", s)`: the string wrapped in double quotes with its
contents escaped. -/
def goQuote (s : String) : String :=
  "\"" ++ (s.data.map goEscapeChar).foldl (fun a b => a ++ b) "" ++ "\""

/-- The `export KEY="VALUE"` lines accumulated by the bash branch of
`prepareCodeWithEnv` (`prefix += fmt.Sprintf("export %s=%q\n", k, v)`). -/
def envExports (env : List (String × String)) : String :=
  env.foldl (fun acc kv => acc ++ ("export " ++ kv.1 ++ "=" ++ goQuote kv.2 ++ "\n")) ""

/-- The `os.environ["KEY"] = "VALUE"` lines accumulated by the python branch
of `prepareCodeWithEnv` on top of a given initial string. -/
def envAssignsFrom (init : String) (env : List (String × String)) : String :=
  env.foldl
    (fun acc kv => acc ++ ("os.environ[" ++ goQuote kv.1 ++ "] = " ++ goQuote kv.2 ++ "\n"))
    init

/-- `prepareCodeWithEnv`: wrap code to inject the session's environment
variables.  Empty env map: unchanged.  bash/shell/sh: export lines are
prepended.  python/python3: `import os` plus assignment lines are prepended.
Any other language: unchanged.  The env association list stands for the Go
map together with one of its (unspecified) iteration orders. -/
def prepareCodeWithEnv (code : String) (env : List (String × String))
    (language : String) : String :=
  if env = [] then code
  else if language = "bash" ∨ language = "shell" ∨ language = "sh" then
    envExports env ++ code
  else if language = "python" ∨ language = "python3" then
    envAssignsFrom "import os\n" env ++ code
  else code

/-- `LanguageMap`: language names to Judge0 language ids. -/
def LanguageMap : List (String × Int) :=
  [("bash", 46), ("shell", 46), ("sh", 46),
   ("python", 71), ("python3", 71),
   ("go", 60), ("golang", 60),
   ("javascript", 63), ("js", 63), ("node", 63),
   ("ruby", 72), ("rust", 73), ("c", 50), ("cpp", 54), ("c++", 54)]

/-- `GetLanguageID`: resolve a language name to its Judge0 id. -/
def GetLanguageID (language : String) : Except String Int :=
  match alookup LanguageMap language with
  | some id => Except.ok id
  | none => Except.error ("unsupported language: " ++ language)

/-- Judge0 execution status as returned by the polling endpoint. -/
structure Status where
  id : Int
  description : String
deriving DecidableEq

/-- `Judge0Result`: the decoded body of one poll response. -/
structure Judge0Result where
  token : String
  stdout : String
  stderr : String
  compileOutput : String
  message : String
  exitCode : Int
  time : String
  memory : Int
  status : Status
deriving DecidableEq

/-- Errors of the execution client's wait loop. -/
inductive ClientError where
  | executionTimeout
deriving DecidableEq

/-- The body of `waitForResult`'s polling loop: `fuel` remaining attempts,
`i` the index of the next poll.  `poll i` is the decoded response of the
`i`-th GET of the submission (transport/decode failures, which abort the loop
in the source, are outside this model).  A response with status id `≥ 3` is
terminal and returned; otherwise the loop sleeps 500ms (real time, not
modelled) and polls again, timing out when the fuel runs out. -/
def waitLoop (poll : Nat → Judge0Result) : Nat → Nat →
    Except ClientError Judge0Result
  | 0, _ => Except.error ClientError.executionTimeout
  | fuel + 1, i =>
    let result := poll i
    if 3 ≤ result.status.id then Except.ok result
    else waitLoop poll fuel (i + 1)

/-- `waitForResult`: poll up to `maxAttempts = 30` times. -/
def waitForResult (poll : Nat → Judge0Result) : Except ClientError Judge0Result :=
  waitLoop poll 30 0

/-- One submission sent to the remote engine: (source code, language id,
stdin). -/
abbrev Submission := String × Int × String

/-- The execution result payload each call path hands back to its caller. -/
structure ExecuteResponse where
  stdout : String
  stderr : String
  exitCode : Int
  timeMs : Nat
deriving DecidableEq

/-- Outcome of the CLI `exec` command.  `output` means the result was
delivered to the user (printed or JSON-encoded); `warned` records whether the
`AddExecution` failure warning was printed to stderr, and `exitCodeError`
whether the command afterwards returned the non-JSON-mode `exit code: %d`
error. -/
inductive CliResult where
  | notFound (id : String)
  | invalidState (status : String)
  | langUnsupported (language : String)
  | engineFailed
  | output (resp : ExecuteResponse) (warned : Bool) (exitCodeError : Bool)
deriving DecidableEq

/-- `execCmd` (CLI path): look the session up, reject non-active sessions,
resolve the language, inject env vars, call the engine, record the execution
(warning only on failure), deliver the result.  `engineRes` is the outcome of
`judge0Client.Execute` on the injected code; `durMs` the measured wall-clock
duration; `startTime`/`now2` the two `time.Now()` readings. -/
def execCmd (w : World) (sessionID code stdin : String) (jsonOut : Bool)
    (engineRes : Except Unit Judge0Result) (durMs : Nat) (execBytes : List Nat)
    (startTime now2 : Nat) (openOk snapOk : Bool) :
    CliResult × World × List Submission :=
  match alookup w.sessions sessionID with
  | none => (CliResult.notFound sessionID, w, [])
  | some session =>
    if session.status ≠ "active" then
      (CliResult.invalidState session.status, w, [])
    else
      match GetLanguageID session.language with
      | Except.error _ => (CliResult.langUnsupported session.language, w, [])
      | Except.ok langID =>
        let fullCode := prepareCodeWithEnv code session.state.env session.language
        match engineRes with
        | Except.error _ => (CliResult.engineFailed, w, [(fullCode, langID, stdin)])
        | Except.ok result =>
          let e : Execution :=
            { id := "", code := code, output := result.stdout,
              stderr := result.stderr, exitCode := result.exitCode,
              time := startTime, duration := durMs }
          let recorded := AddExecution w sessionID e execBytes now2 openOk snapOk
          let warned := match recorded.1 with
            | Except.error _ => true
            | Except.ok _ => false
          let resp : ExecuteResponse :=
            { stdout := result.stdout, stderr := result.stderr,
              exitCode := result.exitCode, timeMs := durMs }
          (CliResult.output resp warned (!jsonOut && result.exitCode != 0),
           recorded.2, [(fullCode, langID, stdin)])

/-- Outcome of the HTTP `POST /sessions/{id}/execute` handler. -/
inductive HttpResult where
  | notFound (msg : String)
  | badRequest (msg : String)
  | serverError (msg : String)
  | ok (resp : ExecuteResponse) (warned : Bool)
deriving DecidableEq

/-- `handleExecute` (HTTP path): same pipeline as the CLI path but with *no*
session-status check; `warned` records whether the `AddExecution` failure was
logged. -/
def handleExecute (w : World) (id code stdin : String)
    (engineRes : Except Unit Judge0Result) (durMs : Nat) (execBytes : List Nat)
    (startTime now2 : Nat) (openOk snapOk : Bool) :
    HttpResult × World × List Submission :=
  match alookup w.sessions id with
  | none => (HttpResult.notFound ("session not found: " ++ id), w, [])
  | some session =>
    if code = "" then (HttpResult.badRequest "code is required", w, [])
    else
      match GetLanguageID session.language with
      | Except.error msg => (HttpResult.serverError msg, w, [])
      | Except.ok langID =>
        let fullCode := prepareCodeWithEnv code session.state.env session.language
        match engineRes with
        | Except.error _ =>
          (HttpResult.serverError "execution failed", w, [(fullCode, langID, stdin)])
        | Except.ok result =>
          let e : Execution :=
            { id := "", code := code, output := result.stdout,
              stderr := result.stderr, exitCode := result.exitCode,
              time := startTime, duration := durMs }
          let recorded := AddExecution w id e execBytes now2 openOk snapOk
          let warned := match recorded.1 with
            | Except.error _ => true
            | Except.ok _ => false
          let resp : ExecuteResponse :=
            { stdout := result.stdout, stderr := result.stderr,
              exitCode := result.exitCode, timeMs := durMs }
          (HttpResult.ok resp warned, recorded.2, [(fullCode, langID, stdin)])

/-- Outcome of the MCP `j0_execute` tool invocation. -/
inductive McpResult where
  | failed (msg : String)
  | ok (resp : ExecuteResponse)
deriving DecidableEq

/-- `invokeMCPExecute` (agent/MCP path): no session-status check either, and
the `AddExecution` error is discarded entirely. -/
def invokeMCPExecute (w : World) (sessionID code stdin : String)
    (engineRes : Except Unit Judge0Result) (durMs : Nat) (execBytes : List Nat)
    (startTime now2 : Nat) (openOk snapOk : Bool) :
    McpResult × World × List Submission :=
  if sessionID = "" then (McpResult.failed "session_id is required", w, [])
  else if code = "" then (McpResult.failed "code is required", w, [])
  else
    match alookup w.sessions sessionID with
    | none => (McpResult.failed ("session not found: " ++ sessionID), w, [])
    | some session =>
      match GetLanguageID session.language with
      | Except.error msg => (McpResult.failed msg, w, [])
      | Except.ok langID =>
        let fullCode := prepareCodeWithEnv code session.state.env session.language
        match engineRes with
        | Except.error _ =>
          (McpResult.failed "execution failed", w, [(fullCode, langID, stdin)])
        | Except.ok result =>
          let e : Execution :=
            { id := "", code := code, output := result.stdout,
              stderr := result.stderr, exitCode := result.exitCode,
              time := startTime, duration := durMs }
          let recorded := AddExecution w sessionID e execBytes now2 openOk snapOk
          let resp : ExecuteResponse :=
            { stdout := result.stdout, stderr := result.stderr,
              exitCode := result.exitCode, timeMs := durMs }
          (McpResult.ok resp, recorded.2, [(fullCode, langID, stdin)])

/-- The history currently recorded for a session id (empty if the id is not
registered). -/
def histOf (w : World) (id : String) : List Execution :=
  match alookup w.sessions id with
  | some s => s.state.history
  | none => []

/-- One invocation of a session-store operation, with all of its external
inputs (random bytes, clock readings, file-operation outcomes) attached. -/
inductive StoreOp where
  | create (language name : String) (bytes : List Nat) (now : Nat) (logOk snapOk : Bool)
  | getSession (id : String)
  | listAll
  | setEnv (id key value : String) (now : Nat) (snapOk : Bool)
  | addExec (id : String) (e : Execution) (bytes : List Nat) (now : Nat) (openOk snapOk : Bool)
  | close (id : String) (now : Nat) (snapOk : Bool)
  | getLog (id : String) (n : Int)

/-- The world after one store operation (read-only operations leave it
unchanged). -/
def stepOp (w : World) : StoreOp → World
  | StoreOp.create language name bytes now logOk snapOk =>
    (CreateSession w language name bytes now logOk snapOk).2
  | StoreOp.getSession _ => w
  | StoreOp.listAll => w
  | StoreOp.setEnv id key value now snapOk => (SetEnv w id key value now snapOk).2
  | StoreOp.addExec id e bytes now openOk snapOk =>
    (AddExecution w id e bytes now openOk snapOk).2
  | StoreOp.close id now snapOk => (CloseSession w id now snapOk).2
  | StoreOp.getLog _ _ => w

/-- The world after a sequence of store operations. -/
def runOps : World → List StoreOp → World
  | w, [] => w
  | w, op :: ops => runOps (stepOp w op) ops

/-- A `create` operation whose generated id is not already registered; every
other operation satisfies this trivially.  (The code never checks this: 4
random bytes are trusted to be fresh.) -/
def FreshCreate (w : World) : StoreOp → Prop
  | StoreOp.create _ _ bytes _ _ _ => alookup w.sessions (generateID "sess" bytes) = none
  | _ => True

/-- Every `create` along the run draws an id that is fresh at that point. -/
def FreshRun : World → List StoreOp → Prop
  | _, [] => True
  | w, op :: ops => FreshCreate w op ∧ FreshRun (stepOp w op) ops

/-! Concrete scenario data used by counterexamples and witnesses. -/

/-- An empty store over data directory `d`. -/
def w0 : World := { sessions := [], logs := [], snaps := [], dataDir := "d" }

/-- First creation: 4 zero random bytes give id `sess-00000000`. -/
def createA := CreateSession w0 "bash" "" [0, 0, 0, 0] 1 true true

/-- The world holding the one session `sess-00000000`. -/
def wA : World := createA.2

/-- A sample execution record as built by the execute paths. -/
def sampleExec : Execution :=
  { id := "", code := "echo hi", output := "hi\n", stderr := "", exitCode := 0,
    time := 2, duration := 5 }

/-- Recording one execution in `sess-00000000`. -/
def addB := AddExecution wA "sess-00000000" sampleExec [1, 1, 1, 1] 3 true true

/-- The world after that execution is recorded. -/
def wB : World := addB.2

/-- A second creation whose random bytes collide with the first. -/
def createC := CreateSession wB "bash" "" [0, 0, 0, 0] 4 true true

/-- The world after the colliding creation. -/
def wC : World := createC.2

/-- A closed bash session. -/
def closedSession : Session :=
  { id := "sess-00000000", name := "", language := "bash", createdAt := 1,
    updatedAt := 2, state := { env := [], history := [] },
    logFile := "d/logs/sess-00000000.log", status := "closed" }

/-- A store holding only `closedSession`. -/
def wClosed : World :=
  { sessions := [("sess-00000000", closedSession)],
    logs := [("d/logs/sess-00000000.log", "")],
    snaps := [("d/sess-00000000.json", closedSession)], dataDir := "d" }

/-- An active bash session with one env var set. -/
def activeSession : Session :=
  { id := "sess-00000000", name := "", language := "bash", createdAt := 1,
    updatedAt := 2, state := { env := [("FOO", "bar")], history := [] },
    logFile := "d/logs/sess-00000000.log", status := "active" }

/-- A store holding only `activeSession`. -/
def wActive : World :=
  { sessions := [("sess-00000000", activeSession)],
    logs := [("d/logs/sess-00000000.log", "")],
    snaps := [("d/sess-00000000.json", activeSession)], dataDir := "d" }

/-- A terminal (Accepted) poll response. -/
def okResult : Judge0Result :=
  { token := "t", stdout := "hi\n", stderr := "", compileOutput := "",
    message := "", exitCode := 0, time := "0.1", memory := 100,
    status := { id := 3, description := "Accepted" } }

/-- A non-terminal (Processing) poll response. -/
def processingResult : Judge0Result :=
  { okResult with status := { id := 2, description := "Processing" } }

/-- A poll sequence that turns terminal at attempt 2. -/
def pollsTerminalAt2 (j : Nat) : Judge0Result :=
  if j = 2 then okResult else processingResult

/-- A poll sequence that never turns terminal. -/
def pollsNeverDone (_ : Nat) : Judge0Result := processingResult

/-! Association-list lemmas. -/

theorem alookup_aset_self {α : Type} (l : List (String × α)) (k : String)
    (v : α) : alookup (aset l k v) k = some v := by
  induction l with
  | nil => simp [aset, alookup]
  | cons hd tl ih =>
    obtain ⟨k', v'⟩ := hd
    by_cases h : k' = k
    · simp [aset, h, alookup]
    · simp [aset, h, alookup, ih]

theorem alookup_aset_ne {α : Type} (l : List (String × α)) (k k' : String)
    (v : α) (h : k ≠ k') : alookup (aset l k v) k' = alookup l k' := by
  induction l with
  | nil => simp [aset, alookup, h]
  | cons hd tl ih =>
    obtain ⟨k₀, v₀⟩ := hd
    by_cases h₀ : k₀ = k
    · subst h₀; simp [aset, alookup, h, ih]
    · by_cases h₁ : k₀ = k'
      · subst h₁; simp [aset, h₀, alookup]
      · simp [aset, h₀, alookup, h₁, ih]

theorem alookup_eq_none_iff {α : Type} (l : List (String × α)) (k : String) :
    alookup l k = none ↔ k ∉ keysOf l := by
  induction l with
  | nil => simp [alookup, keysOf]
  | cons hd tl ih =>
    obtain ⟨k', v'⟩ := hd
    by_cases h : k' = k
    · subst h; simp [alookup, keysOf]
    · simp [alookup, keysOf, h, ih, Ne.symm h]

theorem keysOf_aset_mem {α : Type} (l : List (String × α)) (k : String)
    (v : α) (h : k ∈ keysOf l) : keysOf (aset l k v) = keysOf l := by
  induction l with
  | nil => simp [keysOf] at h
  | cons hd tl ih =>
    obtain ⟨k', v'⟩ := hd
    by_cases h₀ : k' = k
    · subst h₀; simp [aset, keysOf]
    · simp only [keysOf, List.map_cons, List.mem_cons] at h
      rcases h with h | h
      · exact absurd h.symm h₀
      · simp only [aset, h₀, if_false, keysOf, List.map_cons]
        exact congrArg (k' :: ·) (ih h)

theorem keysOf_aset_fresh {α : Type} (l : List (String × α)) (k : String)
    (v : α) (h : k ∉ keysOf l) : keysOf (aset l k v) = keysOf l ++ [k] := by
  induction l with
  | nil => simp [aset, keysOf]
  | cons hd tl ih =>
    obtain ⟨k', v'⟩ := hd
    simp only [keysOf, List.map_cons, List.mem_cons, not_or] at h
    have hne : ¬(k' = k) := fun hh => h.1 hh.symm
    simp only [aset, hne, if_false, keysOf, List.map_cons, List.cons_append]
    exact congrArg (k' :: ·) (ih h.2)

/-! History-extension lemmas for the store operations. -/

theorem sessions_createSession (w : World) (language name : String)
    (bytes : List Nat) (now : Nat) (snapOk : Bool) :
    (CreateSession w language name bytes now true snapOk).2.sessions
      = aset w.sessions (generateID "sess" bytes)
          (freshSession w language name bytes now) := by
  cases snapOk <;> simp [CreateSession, saveSessionW, freshSession]

theorem histOf_stepOp_extends (w : World) (op : StoreOp)
    (hf : FreshCreate w op) (id : String) :
    ∃ t, histOf (stepOp w op) id = histOf w id ++ t := by
  cases op with
  | getSession _ => exact ⟨[], by simp [stepOp]⟩
  | listAll => exact ⟨[], by simp [stepOp]⟩
  | getLog _ _ => exact ⟨[], by simp [stepOp]⟩
  | create language name bytes now logOk snapOk =>
    cases logOk with
    | false => exact ⟨[], by simp [stepOp, CreateSession]⟩
    | true =>
      refine ⟨[], ?_⟩
      have hs := sessions_createSession w language name bytes now snapOk
      have hf' : alookup w.sessions (generateID "sess" bytes) = none := hf
      by_cases hid : generateID "sess" bytes = id
      · subst hid
        simp [stepOp, histOf, hs, alookup_aset_self, freshSession, hf']
      · simp [stepOp, histOf, hs, alookup_aset_ne _ _ _ _ hid]
  | setEnv sid key value now snapOk =>
    cases h : alookup w.sessions sid with
    | none => exact ⟨[], by simp [stepOp, SetEnv, h]⟩
    | some s =>
      refine ⟨[], ?_⟩
      by_cases hid : sid = id
      · subst hid
        cases snapOk <;>
          simp [stepOp, SetEnv, h, saveSessionW, histOf, alookup_aset_self]
      · cases snapOk <;>
          simp [stepOp, SetEnv, h, saveSessionW, histOf,
            alookup_aset_ne _ _ _ _ hid]
  | close sid now snapOk =>
    cases h : alookup w.sessions sid with
    | none => exact ⟨[], by simp [stepOp, CloseSession, h]⟩
    | some s =>
      refine ⟨[], ?_⟩
      by_cases hid : sid = id
      · subst hid
        cases snapOk <;>
          simp [stepOp, CloseSession, h, saveSessionW, histOf, alookup_aset_self]
      · cases snapOk <;>
          simp [stepOp, CloseSession, h, saveSessionW, histOf,
            alookup_aset_ne _ _ _ _ hid]
  | addExec sid e bytes now openOk snapOk =>
    cases h : alookup w.sessions sid with
    | none => exact ⟨[], by simp [stepOp, AddExecution, h]⟩
    | some s =>
      by_cases hid : sid = id
      · subst hid
        refine ⟨[execWithId e bytes], ?_⟩
        cases openOk <;> cases snapOk <;>
          simp [stepOp, AddExecution, h, saveSessionW, histOf,
            alookup_aset_self, withExecution]
      · refine ⟨[], ?_⟩
        cases openOk <;> cases snapOk <;>
          simp [stepOp, AddExecution, h, saveSessionW, histOf,
            alookup_aset_ne _ _ _ _ hid]

theorem histOf_runOps_extends (ops : List StoreOp) : ∀ w : World,
    FreshRun w ops → ∀ id, ∃ t, histOf (runOps w ops) id = histOf w id ++ t := by
  induction ops with
  | nil => intro w _ id; exact ⟨[], by simp [runOps]⟩
  | cons op ops ih =>
    intro w hf id
    obtain ⟨t₁, h₁⟩ := histOf_stepOp_extends w op hf.1 id
    obtain ⟨t₂, h₂⟩ := ih (stepOp w op) hf.2 id
    exact ⟨t₁ ++ t₂, by simp [runOps] at h₂ ⊢; rw [h₂, h₁, List.append_assoc]⟩

/-! Wait-loop lemmas for the execution client. -/

theorem waitLoop_ok (poll : Nat → Judge0Result) :
    ∀ (fuel start k : Nat), k < fuel → 3 ≤ (poll (start + k)).status.id →
      (∀ j, j < k → (poll (start + j)).status.id < 3) →
      waitLoop poll fuel start = Except.ok (poll (start + k)) := by
  intro fuel
  induction fuel with
  | zero => intro start k hk _ _; exact absurd hk (Nat.not_lt_zero k)
  | succ n ih =>
    intro start k hk hterm hmin
    cases k with
    | zero =>
      simp only [Nat.add_zero] at hterm
      simp [waitLoop, hterm]
    | succ m =>
      have h0 : (poll start).status.id < 3 := by
        have := hmin 0 (Nat.succ_pos m)
        simpa using this
      have hrec := ih (start + 1) m (by omega)
        (by rw [show start + 1 + m = start + (m + 1) from by omega]; exact hterm)
        (fun j hj => by
          rw [show start + 1 + j = start + (j + 1) from by omega]
          exact hmin (j + 1) (by omega))
      rw [show start + (m + 1) = start + 1 + m from by omega]
      simpa [waitLoop, not_le.mpr h0] using hrec

theorem waitLoop_timeout (poll : Nat → Judge0Result) :
    ∀ (fuel start : Nat), (∀ j, j < fuel → (poll (start + j)).status.id < 3) →
      waitLoop poll fuel start = Except.error ClientError.executionTimeout := by
  intro fuel
  induction fuel with
  | zero => intro start _; simp [waitLoop]
  | succ n ih =>
    intro start h
    have h0 : (poll start).status.id < 3 := by simpa using h 0 (Nat.succ_pos n)
    have hrec := ih (start + 1) (fun j hj => by
      rw [show start + 1 + j = start + (j + 1) from by omega]
      exact h (j + 1) (by omega))
    simpa [waitLoop, not_le.mpr h0] using hrec

/-- C4: the execution client's wait loop returns the polled result at the
first response whose status code is at least 3 (terminal); earlier responses
with smaller status codes (in particular 1 and 2) only make polling continue;
and if none of the 30 attempts yields a status of at least 3, the loop fails
with the execution-timeout error — not earlier and not indefinitely. -/
theorem waitForResult_terminal_or_timeout (poll : Nat → Judge0Result) :
    (∀ k, k < 30 → 3 ≤ (poll k).status.id →
      (∀ j, j < k → (poll j).status.id < 3) →
      waitForResult poll = Except.ok (poll k))
    ∧ ((∀ j, j < 30 → (poll j).status.id < 3) →
      waitForResult poll = Except.error ClientError.executionTimeout) := by
  constructor
  · intro k hk hterm hmin
    have h := waitLoop_ok poll 30 0 k hk (by simpa using hterm)
      (fun j hj => by simpa using hmin j hj)
    simpa [waitForResult] using h
  · intro h
    have h' := waitLoop_timeout poll 30 0 (fun j hj => by simpa using h j hj)
    simpa [waitForResult] using h'

/-- C4 witness: a poll stream that turns terminal at attempt 2 returns that
result; a stream stuck at Processing for all 30 attempts times out. -/
theorem waitForResult_terminal_or_timeout_witness :
    waitForResult pollsTerminalAt2 = Except.ok okResult
    ∧ waitForResult pollsNeverDone = Except.error ClientError.executionTimeout := by
  constructor
  · have h := (waitForResult_terminal_or_timeout pollsTerminalAt2).1 2
      (by decide) (by decide) (by decide)
    simpa [pollsTerminalAt2] using h
  · exact (waitForResult_terminal_or_timeout pollsNeverDone).2 (by decide)

/-! Environment-injection lemmas. -/

theorem foldl_append_shift (f : String × String → String)
    (l : List (String × String)) :
    ∀ init : String, l.foldl (fun acc kv => acc ++ f kv) init
      = init ++ l.foldl (fun acc kv => acc ++ f kv) "" := by
  induction l with
  | nil =>
    intro init
    show init = init ++ ""
    exact (String.append_empty init).symm
  | cons hd tl ih =>
    intro init
    simp only [List.foldl_cons]
    rw [ih (init ++ f hd), ih ("" ++ f hd), String.empty_append,
      String.append_assoc]

/-- C6: with an empty env map, or a language that has no injection template
(anything but bash/shell/sh and python/python3), the submitted code is the
caller's code unmodified; bash-family code is prefixed by one
`export KEY="VALUE"` line per env entry; python-family code is prefixed by
the `import os` line plus one `os.environ` assignment per entry; and in all
cases the caller's code is a suffix of the submitted code. -/
theorem prepareCodeWithEnv_spec (code : String) (env : List (String × String))
    (language : String) :
    (env = [] → prepareCodeWithEnv code env language = code)
    ∧ (language ≠ "bash" → language ≠ "shell" → language ≠ "sh" →
        language ≠ "python" → language ≠ "python3" →
        prepareCodeWithEnv code env language = code)
    ∧ (language = "bash" ∨ language = "shell" ∨ language = "sh" →
        prepareCodeWithEnv code env language = envExports env ++ code)
    ∧ (env ≠ [] → language = "python" ∨ language = "python3" →
        prepareCodeWithEnv code env language
          = "import os\n" ++ envAssignsFrom "" env ++ code)
    ∧ ∃ p, prepareCodeWithEnv code env language = p ++ code := by
  have hshift : envAssignsFrom "import os\n" env
      = "import os\n" ++ envAssignsFrom "" env :=
    foldl_append_shift _ env "import os\n"
  refine ⟨?_, ?_, ?_, ?_, ?_⟩
  · intro h
    simp [prepareCodeWithEnv, h]
  · intro h1 h2 h3 h4 h5
    by_cases he : env = []
    · simp [prepareCodeWithEnv, he]
    · simp [prepareCodeWithEnv, he, h1, h2, h3, h4, h5]
  · intro h
    by_cases he : env = []
    · subst he
      simp [prepareCodeWithEnv, envExports, String.empty_append]
    · simp [prepareCodeWithEnv, he, h]
  · intro he h
    have hb : ¬(language = "bash" ∨ language = "shell" ∨ language = "sh") := by
      rcases h with h | h <;> subst h <;> decide
    simp only [prepareCodeWithEnv, he, if_neg he, hb, if_false, h]
    rcases h with h | h <;>
      simp [h, hshift, String.append_assoc]
  · by_cases he : env = []
    · exact ⟨"", by simp [prepareCodeWithEnv, he, String.empty_append]⟩
    · by_cases hb : language = "bash" ∨ language = "shell" ∨ language = "sh"
      · exact ⟨envExports env, by simp [prepareCodeWithEnv, he, hb]⟩
      · by_cases hp : language = "python" ∨ language = "python3"
        · exact ⟨envAssignsFrom "import os\n" env,
            by simp [prepareCodeWithEnv, he, hb, hp]⟩
        · exact ⟨"", by simp [prepareCodeWithEnv, he, hb, hp, String.empty_append]⟩

/-- C6 witness: the spec's scenario — a bash session with `FOO=bar` submits
`export FOO="bar"` before `echo $FOO`; a language without a template (ruby)
submits the code unmodified. -/
theorem prepareCodeWithEnv_spec_witness :
    prepareCodeWithEnv "echo $FOO" [("FOO", "bar")] "bash"
      = envExports [("FOO", "bar")] ++ "echo $FOO"
    ∧ prepareCodeWithEnv "echo $FOO" [("FOO", "bar")] "bash"
      = "export FOO=\"bar\"\necho $FOO"
    ∧ prepareCodeWithEnv "x = 1" [("FOO", "bar")] "ruby" = "x = 1" := by
  refine ⟨?_, ?_, ?_⟩
  · exact (prepareCodeWithEnv_spec "echo $FOO" [("FOO", "bar")] "bash").2.2.1
      (Or.inl rfl)
  · rw [(prepareCodeWithEnv_spec "echo $FOO" [("FOO", "bar")] "bash").2.2.1
      (Or.inl rfl)]
    decide
  · exact (prepareCodeWithEnv_spec "x = 1" [("FOO", "bar")] "ruby").2.1
      (by decide) (by decide) (by decide) (by decide) (by decide)

/-- C9: for every registered session and every line count, GetLog returns the
entire log file content — the `lines` argument has no effect — and it fails
with NotFound exactly when the session id is absent from the store. -/
theorem getLog_reads_whole_file (w : World) (id : String) (n m : Int) :
    (GetLog w id n = GetLog w id m)
    ∧ (∀ s, alookup w.sessions id = some s →
        ∀ c, alookup w.logs s.logFile = some c → GetLog w id n = Except.ok c)
    ∧ (GetLog w id n = Except.error (StoreError.notFound id)
        ↔ alookup w.sessions id = none) := by
  refine ⟨?_, ?_, ?_⟩
  · cases hs : alookup w.sessions id with
    | none => simp [GetLog, hs]
    | some s =>
      cases hc : alookup w.logs s.logFile with
      | none => simp [GetLog, hs, hc]
      | some c => simp [GetLog, hs, hc]
  · intro s hs c hc
    simp [GetLog, hs, hc]
  · constructor
    · intro h
      cases hs : alookup w.sessions id with
      | none => rfl
      | some s =>
        cases hc : alookup w.logs s.logFile with
        | none => simp [GetLog, hs, hc] at h
        | some c => simp [GetLog, hs, hc] at h
    · intro h
      simp [GetLog, h]

/-- C9 witness: on a store with one session whose log file is empty, GetLog
returns the empty content for two different line counts, and NotFound for an
absent id. -/
theorem getLog_reads_whole_file_witness :
    GetLog wActive "sess-00000000" 5 = GetLog wActive "sess-00000000" 100
    ∧ GetLog wActive "sess-00000000" 5 = Except.ok ""
    ∧ (GetLog wActive "nope" 5 = Except.error (StoreError.notFound "nope")
        ↔ alookup wActive.sessions "nope" = none) := by
  refine ⟨(getLog_reads_whole_file wActive "sess-00000000" 5 100).1,
    (getLog_reads_whole_file wActive "sess-00000000" 5 100).2.1 activeSession
      (by decide) "" (by decide),
    (getLog_reads_whole_file wActive "nope" 5 100).2.2⟩

/-- C10: when `AddExecution` fails because the log file cannot be opened for
appending, it returns an error, but the in-memory store has already been
mutated — the execution, with its freshly assigned id, is appended to the
history and `updatedAt` is refreshed — while neither the snapshot nor the log
file on disk is written. -/
theorem addExecution_logOpenFailure_mutates (w : World) (id : String)
    (e : Execution) (bytes : List Nat) (now : Nat) (snapOk : Bool)
    (s : Session) (hs : alookup w.sessions id = some s) :
    (AddExecution w id e bytes now false snapOk).1
      = Except.error StoreError.logFileOpen
    ∧ alookup (AddExecution w id e bytes now false snapOk).2.sessions id
        = some (withExecution s (execWithId e bytes) now)
    ∧ (AddExecution w id e bytes now false snapOk).2.snaps = w.snaps
    ∧ (AddExecution w id e bytes now false snapOk).2.logs = w.logs := by
  refine ⟨?_, ?_, ?_, ?_⟩ <;> simp [AddExecution, hs, alookup_aset_self]

/-- C10 witness: concrete log-open failure on the one-session store. -/
theorem addExecution_logOpenFailure_mutates_witness :
    (AddExecution wA "sess-00000000" sampleExec [1, 1, 1, 1] 9 false true).1
      = Except.error StoreError.logFileOpen
    ∧ alookup (AddExecution wA "sess-00000000" sampleExec [1, 1, 1, 1] 9 false true).2.sessions
        "sess-00000000"
      = some (withExecution (freshSession w0 "bash" "" [0, 0, 0, 0] 1)
          (execWithId sampleExec [1, 1, 1, 1]) 9)
    ∧ (AddExecution wA "sess-00000000" sampleExec [1, 1, 1, 1] 9 false true).2.snaps
        = wA.snaps
    ∧ (AddExecution wA "sess-00000000" sampleExec [1, 1, 1, 1] 9 false true).2.logs
        = wA.logs :=
  addExecution_logOpenFailure_mutates wA "sess-00000000" sampleExec [1, 1, 1, 1]
    9 true (freshSession w0 "bash" "" [0, 0, 0, 0] 1) (by decide)

/-- C3: when the engine call succeeds, a failure to record the execution
(log-open or snapshot-write failure inside `AddExecution`) never turns the
Execute call into an error: the HTTP handler still responds with the
execution result (stdout, stderr, exit code, duration) and the CLI command
still delivers it, with the persistence failure surfaced only as the warning
flag. -/
theorem execute_persistFailure_nonfatal (w : World) (id code stdin : String)
    (jsonOut : Bool) (res : Judge0Result) (durMs : Nat) (bytes : List Nat)
    (t1 t2 : Nat) (openOk snapOk : Bool) (s : Session) (langID : Int)
    (hs : alookup w.sessions id = some s)
    (hlang : GetLanguageID s.language = Except.ok langID)
    (hcode : code ≠ "") :
    (handleExecute w id code stdin (Except.ok res) durMs bytes t1 t2 openOk snapOk).1
      = HttpResult.ok
          { stdout := res.stdout, stderr := res.stderr,
            exitCode := res.exitCode, timeMs := durMs }
          (!openOk || !snapOk)
    ∧ (s.status = "active" →
        (execCmd w id code stdin jsonOut (Except.ok res) durMs bytes t1 t2 openOk snapOk).1
          = CliResult.output
              { stdout := res.stdout, stderr := res.stderr,
                exitCode := res.exitCode, timeMs := durMs }
              (!openOk || !snapOk) (!jsonOut && res.exitCode != 0)) := by
  constructor
  · cases openOk <;> cases snapOk <;>
      simp [handleExecute, AddExecution, hs, hlang, hcode, saveSessionW]
  · intro hstat
    cases openOk <;> cases snapOk <;>
      simp [execCmd, AddExecution, hs, hlang, hstat, saveSessionW]

/-- C3 witness: on the one-session store with both persistence steps failing,
the HTTP handler and the CLI both still deliver the engine result. -/
theorem execute_persistFailure_nonfatal_witness :
    (handleExecute wActive "sess-00000000" "echo hi" "" (Except.ok okResult) 7
        [1, 1, 1, 1] 10 11 false false).1
      = HttpResult.ok
          { stdout := "hi\n", stderr := "", exitCode := 0, timeMs := 7 } true
    ∧ (execCmd wActive "sess-00000000" "echo hi" "" true (Except.ok okResult) 7
        [1, 1, 1, 1] 10 11 false false).1
      = CliResult.output
          { stdout := "hi\n", stderr := "", exitCode := 0, timeMs := 7 }
          true false := by
  have h := execute_persistFailure_nonfatal wActive "sess-00000000" "echo hi" ""
    true okResult 7 [1, 1, 1, 1] 10 11 false false activeSession 46
    (by decide) (by rfl) (by decide)
  exact ⟨h.1, h.2 (by decide)⟩

/-- C5: for every Execute call that records an execution (HTTP handler and
CLI command), the history entry's `code` field, and the record appended to
the log file, carry the original caller-supplied source, while the code
submitted to the engine is the environment-injected version. -/
theorem execute_records_original_code (w : World) (id code stdin : String)
    (jsonOut : Bool) (res : Judge0Result) (durMs : Nat) (bytes : List Nat)
    (t1 t2 : Nat) (snapOk : Bool) (s : Session) (langID : Int)
    (hs : alookup w.sessions id = some s)
    (hlang : GetLanguageID s.language = Except.ok langID)
    (hcode : code ≠ "") :
    (histOf (handleExecute w id code stdin (Except.ok res) durMs bytes t1 t2 true snapOk).2.1 id
        = s.state.history
          ++ [{ id := generateID "exec" bytes, code := code,
                output := res.stdout, stderr := res.stderr,
                exitCode := res.exitCode, time := t1, duration := durMs }]
      ∧ alookup (handleExecute w id code stdin (Except.ok res) durMs bytes t1 t2 true snapOk).2.1.logs
          s.logFile
        = some ((alookup w.logs s.logFile).getD ""
            ++ formatLogEntry
                { id := generateID "exec" bytes, code := code,
                  output := res.stdout, stderr := res.stderr,
                  exitCode := res.exitCode, time := t1, duration := durMs })
      ∧ (handleExecute w id code stdin (Except.ok res) durMs bytes t1 t2 true snapOk).2.2
        = [(prepareCodeWithEnv code s.state.env s.language, langID, stdin)])
    ∧ (s.status = "active" →
        histOf (execCmd w id code stdin jsonOut (Except.ok res) durMs bytes t1 t2 true snapOk).2.1 id
          = s.state.history
            ++ [{ id := generateID "exec" bytes, code := code,
                  output := res.stdout, stderr := res.stderr,
                  exitCode := res.exitCode, time := t1, duration := durMs }]
        ∧ (execCmd w id code stdin jsonOut (Except.ok res) durMs bytes t1 t2 true snapOk).2.2
          = [(prepareCodeWithEnv code s.state.env s.language, langID, stdin)]) := by
  constructor
  · refine ⟨?_, ?_, ?_⟩ <;> cases snapOk <;>
      simp [handleExecute, AddExecution, hs, hlang, hcode, saveSessionW, histOf,
        alookup_aset_self, withExecution, execWithId]
  · intro hstat
    refine ⟨?_, ?_⟩ <;> cases snapOk <;>
      simp [execCmd, AddExecution, hs, hlang, hstat, saveSessionW, histOf,
        alookup_aset_self, withExecution, execWithId]

/-- C5 witness: on the one-session bash store with `FOO=bar`, executing
`echo $FOO` submits the injected code but records the original code in
history. -/
theorem execute_records_original_code_witness :
    histOf (handleExecute wActive "sess-00000000" "echo $FOO" ""
        (Except.ok okResult) 7 [1, 1, 1, 1] 10 11 true true).2.1 "sess-00000000"
      = activeSession.state.history
        ++ [{ id := generateID "exec" [1, 1, 1, 1], code := "echo $FOO",
              output := "hi\n", stderr := "", exitCode := 0, time := 10,
              duration := 7 }]
    ∧ (handleExecute wActive "sess-00000000" "echo $FOO" ""
        (Except.ok okResult) 7 [1, 1, 1, 1] 10 11 true true).2.2
      = [("export FOO=\"bar\"\necho $FOO", 46, "")] := by
  have h := (execute_records_original_code wActive "sess-00000000" "echo $FOO"
    "" true okResult 7 [1, 1, 1, 1] 10 11 true activeSession 46
    (by decide) (by rfl) (by decide)).1
  refine ⟨h.1, ?_⟩
  rw [h.2.2]
  decide

/-- C1 counterexample: on a store whose only session is closed, the HTTP
handler and the MCP tool both run `echo hi` anyway — a submission is sent to
the engine, the execution is recorded in history, and the caller receives a
success response instead of an InvalidState error. -/
theorem handleExecute_closedSession_executes :
    closedSession.status = "closed"
    ∧ (handleExecute wClosed "sess-00000000" "echo hi" "" (Except.ok okResult)
        7 [1, 1, 1, 1] 10 11 true true).1
      = HttpResult.ok
          { stdout := "hi\n", stderr := "", exitCode := 0, timeMs := 7 } false
    ∧ (handleExecute wClosed "sess-00000000" "echo hi" "" (Except.ok okResult)
        7 [1, 1, 1, 1] 10 11 true true).2.2
      = [("echo hi", 46, "")]
    ∧ histOf (handleExecute wClosed "sess-00000000" "echo hi" ""
        (Except.ok okResult) 7 [1, 1, 1, 1] 10 11 true true).2.1 "sess-00000000"
      = [execWithId
          { id := "", code := "echo hi", output := "hi\n", stderr := "",
            exitCode := 0, time := 10, duration := 7 } [1, 1, 1, 1]]
    ∧ (invokeMCPExecute wClosed "sess-00000000" "echo hi" "" (Except.ok okResult)
        7 [1, 1, 1, 1] 10 11 true true).1
      = McpResult.ok { stdout := "hi\n", stderr := "", exitCode := 0, timeMs := 7 }
    ∧ (invokeMCPExecute wClosed "sess-00000000" "echo hi" "" (Except.ok okResult)
        7 [1, 1, 1, 1] 10 11 true true).2.2
      = [("echo hi", 46, "")] := by
  refine ⟨by decide, by decide, by decide, by decide, by decide, by decide⟩

/-- C1 (amended): only the CLI path enforces the status check — `execCmd` on
a session whose status is not "active" fails with the InvalidState error,
submits nothing to the engine and leaves the store unchanged; the HTTP and
MCP paths perform no status check and, on an engine success, submit the
injected code and record the execution even on a non-active session. -/
theorem execute_statusCheck_cliOnly (w : World) (id code stdin : String)
    (jsonOut : Bool) (engineRes : Except Unit Judge0Result) (durMs : Nat)
    (bytes : List Nat) (t1 t2 : Nat) (openOk snapOk : Bool) (s : Session)
    (res : Judge0Result) (langID : Int)
    (hs : alookup w.sessions id = some s) (hstat : s.status ≠ "active")
    (hlang : GetLanguageID s.language = Except.ok langID)
    (hcode : code ≠ "") (hid : id ≠ "") :
    execCmd w id code stdin jsonOut engineRes durMs bytes t1 t2 openOk snapOk
      = (CliResult.invalidState s.status, w, [])
    ∧ (handleExecute w id code stdin (Except.ok res) durMs bytes t1 t2 openOk snapOk).2.2
        = [(prepareCodeWithEnv code s.state.env s.language, langID, stdin)]
    ∧ (histOf (handleExecute w id code stdin (Except.ok res) durMs bytes t1 t2 openOk snapOk).2.1 id).length
        = s.state.history.length + 1
    ∧ (invokeMCPExecute w id code stdin (Except.ok res) durMs bytes t1 t2 openOk snapOk).2.2
        = [(prepareCodeWithEnv code s.state.env s.language, langID, stdin)]
    ∧ (histOf (invokeMCPExecute w id code stdin (Except.ok res) durMs bytes t1 t2 openOk snapOk).2.1 id).length
        = s.state.history.length + 1 := by
  refine ⟨?_, ?_, ?_, ?_, ?_⟩
  · simp [execCmd, hs, hstat]
  · cases openOk <;> cases snapOk <;>
      simp [handleExecute, AddExecution, hs, hlang, hcode, saveSessionW]
  · cases openOk <;> cases snapOk <;>
      simp [handleExecute, AddExecution, hs, hlang, hcode, saveSessionW,
        histOf, alookup_aset_self, withExecution]
  · cases openOk <;> cases snapOk <;>
      simp [invokeMCPExecute, AddExecution, hs, hlang, hcode, hid, saveSessionW]
  · cases openOk <;> cases snapOk <;>
      simp [invokeMCPExecute, AddExecution, hs, hlang, hcode, hid, saveSessionW,
        histOf, alookup_aset_self, withExecution]

/-- C1 (amended) witness: concrete closed session, CLI rejects while HTTP and
MCP submit and record. -/
theorem execute_statusCheck_cliOnly_witness :
    execCmd wClosed "sess-00000000" "echo hi" "" false (Except.ok okResult)
        7 [1, 1, 1, 1] 10 11 true true
      = (CliResult.invalidState "closed", wClosed, [])
    ∧ (handleExecute wClosed "sess-00000000" "echo hi" "" (Except.ok okResult)
        7 [1, 1, 1, 1] 10 11 true true).2.2
      = [(prepareCodeWithEnv "echo hi" closedSession.state.env
          closedSession.language, 46, "")] := by
  have h := execute_statusCheck_cliOnly wClosed "sess-00000000" "echo hi" ""
    false (Except.ok okResult) 7 [1, 1, 1, 1] 10 11 true true closedSession
    okResult 46 (by decide) (by decide) (by rfl) (by decide) (by decide)
  exact ⟨h.1, h.2.1⟩

/-- C2 counterexample: on the empty store, a CreateSession whose log file is
written but whose snapshot persist fails returns an error, yet the new
session is left registered in the in-memory map — the map is not as it was
before the call. -/
theorem createSession_snapshotFailure_leavesRegistered :
    (CreateSession w0 "bash" "" [0, 0, 0, 0] 1 true false).1
      = Except.error StoreError.snapshotWrite
    ∧ (CreateSession w0 "bash" "" [0, 0, 0, 0] 1 true false).2.sessions
        ≠ w0.sessions := by
  refine ⟨by rfl, by decide⟩

/-- C2 (amended): if creating the log file fails, CreateSession returns an
error and the whole world is unchanged; but if persisting the snapshot fails,
CreateSession returns an error while the new session remains registered in
the in-memory store — creation is all-or-nothing only for the log-file step,
not for the snapshot step. -/
theorem createSession_failure_behavior (w : World) (language name : String)
    (bytes : List Nat) (now : Nat) (snapOk : Bool) :
    ((CreateSession w language name bytes now false snapOk).1
        = Except.error StoreError.logFileCreate
      ∧ (CreateSession w language name bytes now false snapOk).2 = w)
    ∧ ((CreateSession w language name bytes now true false).1
        = Except.error StoreError.snapshotWrite
      ∧ alookup (CreateSession w language name bytes now true false).2.sessions
            (generateID "sess" bytes)
          = some (freshSession w language name bytes now)
      ∧ (CreateSession w language name bytes now true false).2.snaps = w.snaps) := by
  refine ⟨⟨?_, ?_⟩, ?_, ?_, ?_⟩ <;>
    simp [CreateSession, saveSessionW, alookup_aset_self]

/-- C7 counterexample: create `sess-00000000`, record one execution, then a
second CreateSession whose 4 random bytes collide with the first replaces the
session wholesale — the previously observed history entry is gone, so the
store's operations are not strictly append-only as claimed. -/
theorem create_collision_destroys_history :
    histOf wB "sess-00000000" = [execWithId sampleExec [1, 1, 1, 1]]
    ∧ histOf wC "sess-00000000" = []
    ∧ ¬∃ t, histOf wC "sess-00000000" = histOf wB "sess-00000000" ++ t := by
  refine ⟨by decide, by decide, ?_⟩
  rintro ⟨t, ht⟩
  rw [show histOf wC "sess-00000000" = [] from by decide,
    show histOf wB "sess-00000000" = [execWithId sampleExec [1, 1, 1, 1]]
      from by decide] at ht
  simp at ht

/-- C7 (amended): AddExecution appends exactly one record at the end of the
session's history; and provided every CreateSession along the way draws an id
not already registered (which the code never checks — 4 random bytes are
trusted), no sequence of store operations removes, truncates, reorders or
modifies previously recorded history entries: the old history is always a
prefix of the new one. -/
theorem history_appendOnly_underFreshIds :
    (∀ (w : World) (id : String) (e : Execution) (bytes : List Nat) (now : Nat)
        (openOk snapOk : Bool) (s : Session), alookup w.sessions id = some s →
        histOf (AddExecution w id e bytes now openOk snapOk).2 id
          = s.state.history ++ [execWithId e bytes])
    ∧ (∀ (w : World) (ops : List StoreOp), FreshRun w ops →
        ∀ id, ∃ t, histOf (runOps w ops) id = histOf w id ++ t) := by
  constructor
  · intro w id e bytes now openOk snapOk s hs
    cases openOk <;> cases snapOk <;>
      simp [AddExecution, hs, saveSessionW, histOf, alookup_aset_self,
        withExecution]
  · intro w ops h id
    exact histOf_runOps_extends ops w h id

/-- C7 (amended) witness: one AddExecution on the one-session store appends
exactly its record, and a one-operation run only extends the history. -/
theorem history_appendOnly_underFreshIds_witness :
    histOf (AddExecution wA "sess-00000000" sampleExec [1, 1, 1, 1] 3 true true).2
        "sess-00000000"
      = (freshSession w0 "bash" "" [0, 0, 0, 0] 1).state.history
        ++ [execWithId sampleExec [1, 1, 1, 1]]
    ∧ ∃ t, histOf (runOps wA
          [StoreOp.addExec "sess-00000000" sampleExec [2, 2, 2, 2] 5 true true])
          "sess-00000000"
        = histOf wA "sess-00000000" ++ t := by
  constructor
  · exact history_appendOnly_underFreshIds.1 wA "sess-00000000" sampleExec
      [1, 1, 1, 1] 3 true true (freshSession w0 "bash" "" [0, 0, 0, 0] 1)
      (by decide)
  · exact history_appendOnly_underFreshIds.2 wA
      [StoreOp.addExec "sess-00000000" sampleExec [2, 2, 2, 2] 5 true true]
      ⟨trivial, trivial⟩ "sess-00000000"

/-- C8 counterexample: with `sess-00000000` already registered, a second
CreateSession whose 4 random bytes repeat assigns the very same id — and the
store afterwards holds the new session in place of the old one. -/
theorem createSession_collision_overwrites :
    (alookup wB.sessions "sess-00000000").isSome = true
    ∧ createC.1 = Except.ok (freshSession wB "bash" "" [0, 0, 0, 0] 4)
    ∧ (freshSession wB "bash" "" [0, 0, 0, 0] 4).id = "sess-00000000"
    ∧ keysOf wC.sessions = ["sess-00000000"]
    ∧ alookup wC.sessions "sess-00000000" ≠ alookup wB.sessions "sess-00000000" := by
  refine ⟨by rfl, by rfl, by rfl, by rfl, by decide⟩

/-- C8 (amended): CreateSession assigns the generated random id without
checking the store.  If the generated id is not already registered, the key
set grows by exactly that id and pairwise-distinctness of ids is preserved;
but a generated id that collides with a registered session is still assigned,
silently replacing the stored session (the key set does not grow). -/
theorem createSession_id_uniqueness (w : World) (language name : String)
    (bytes : List Nat) (now : Nat) :
    (alookup w.sessions (generateID "sess" bytes) = none →
      keysOf (CreateSession w language name bytes now true true).2.sessions
        = keysOf w.sessions ++ [generateID "sess" bytes]
      ∧ ((keysOf w.sessions).Nodup →
          (keysOf (CreateSession w language name bytes now true true).2.sessions).Nodup))
    ∧ (alookup w.sessions (generateID "sess" bytes) ≠ none →
      keysOf (CreateSession w language name bytes now true true).2.sessions
        = keysOf w.sessions
      ∧ alookup (CreateSession w language name bytes now true true).2.sessions
          (generateID "sess" bytes)
        = some (freshSession w language name bytes now)) := by
  constructor
  · intro h
    have hmem : generateID "sess" bytes ∉ keysOf w.sessions :=
      (alookup_eq_none_iff _ _).mp h
    have hkeys : keysOf (CreateSession w language name bytes now true true).2.sessions
        = keysOf w.sessions ++ [generateID "sess" bytes] := by
      rw [sessions_createSession]
      exact keysOf_aset_fresh _ _ _ hmem
    refine ⟨hkeys, fun hnd => ?_⟩
    rw [hkeys]
    exact (List.perm_append_singleton _ _).nodup_iff.mpr
      (List.nodup_cons.mpr ⟨hmem, hnd⟩)
  · intro h
    have hmem : generateID "sess" bytes ∈ keysOf w.sessions := by
      by_contra hmem
      exact h ((alookup_eq_none_iff _ _).mpr hmem)
    refine ⟨?_, ?_⟩
    · rw [sessions_createSession]
      exact keysOf_aset_mem _ _ _ hmem
    · rw [sessions_createSession]
      exact alookup_aset_self _ _ _

/-- C8 (amended) witness: creation on the empty store appends its fresh id;
a colliding creation on the one-session store leaves the key set unchanged. -/
theorem createSession_id_uniqueness_witness :
    keysOf (CreateSession w0 "bash" "" [0, 0, 0, 0] 1 true true).2.sessions
      = keysOf w0.sessions ++ [generateID "sess" [0, 0, 0, 0]]
    ∧ keysOf (CreateSession wA "bash" "" [0, 0, 0, 0] 4 true true).2.sessions
      = keysOf wA.sessions := by
  constructor
  · exact ((createSession_id_uniqueness w0 "bash" "" [0, 0, 0, 0] 1).1
      (by decide)).1
  · exact ((createSession_id_uniqueness wA "bash" "" [0, 0, 0, 0] 4).2
      (by decide)).1

end Judge0Orch
